import Mathlib

/-
Verification of the Cannon-Hill shipping bridge (src/index.js, primary
variant at lines 1-260; two older related variants follow in the same file
and are noted where they diverge).

The embedding models the JavaScript string operations the code uses
(`split`, `trim`, regex character classes, `||` defaulting with JS
truthiness) as executable Lean functions over `List Char` / `String`,
and the three components — CSV Normalizer, Row Transformer, Submission
Client — as pure functions.  Absent object fields are `Option`s;
JS `undefined` interpolation and key coercion are made explicit.
-/

namespace CannonHill

/-- JS whitespace class `\s` restricted to the characters that can occur
here: space, tab, newline, carriage return, vertical tab, form feed. -/
def isJsSpace (c : Char) : Bool :=
  c == ' ' || c == '\t' || c == '\n' || c == '\r' || c == '\x0b' || c == '\x0c'

/-- JS `String.prototype.trim`: drop leading and trailing whitespace. -/
def jsTrim (s : String) : String :=
  String.mk (((s.data.dropWhile isJsSpace).reverse.dropWhile isJsSpace).reverse)

/-- Split a character list on a single separator character, JS
`"a-b".split('-')` style: the result always has one more token than there
are separators, and `""` splits to `[""]`. -/
def splitOnChar (sep : Char) : List Char → List (List Char)
  | [] => [[]]
  | c :: rest =>
    let r := splitOnChar sep rest
    if c == sep then [] :: r
    else
      match r with
      | [] => [[c]]
      | t :: ts => (c :: t) :: ts

/-- JS `s.split(sep)` for a one-character separator. -/
def jsSplit (sep : Char) (s : String) : List String :=
  (splitOnChar sep s.data).map (fun l => String.mk l)

/-- JS string interpolation / property-key coercion of a possibly-undefined
string value: `undefined` prints as `"undefined"`. -/
def jsToStr : Option String → String
  | none => "undefined"
  | some s => s

/-- JS `x || d` for a possibly-undefined string `x`: the default is used
when `x` is `undefined` or the (falsy) empty string. -/
def jsOrDefault (o : Option String) (d : String) : String :=
  match o with
  | none => d
  | some s => if s = "" then d else s

/- ## CSV Normalizer (`parseCSVFromBuffer`, src/index.js lines 59-79) -/

/-- Key rewrite from src/index.js line 71: `key.replace(/[- ]/g, '_')` —
every space or hyphen in a column name becomes an underscore. -/
def normalizeKey (k : String) : String :=
  String.mk (k.data.map (fun c => if c == '-' || c == ' ' then '_' else c))

/-- Modelled from the spec: the `csv-parser` library (a dependency, not
code under src/) with `skipLines: 4` drops the first four lines
unconditionally, reads the next line as the column header, and pairs each
later line's comma-separated cells with the header's column names, one
row per data line in order. -/
def parseCSVRows (lines : List String) : List (List (String × String)) :=
  match lines.drop 4 with
  | [] => []
  | header :: dataLines =>
    dataLines.map (fun line => (jsSplit ',' header).zip (jsSplit ',' line))

/-- `parseCSVFromBuffer` (src/index.js lines 59-79): parse the uploaded
bytes as CSV and rewrite each row's keys with `normalizeKey`, leaving the
values untouched. -/
def parseCSVFromBuffer (content : String) : List (List (String × String)) :=
  (parseCSVRows (jsSplit '\n' content)).map
    (fun row => row.map (fun kv => (normalizeKey kv.1, kv.2)))

/- ## Row Transformer (`formatCannonHillData`, src/index.js lines 86-119) -/

/-- A normalized CSV row restricted to the four columns the transformer
reads; a `none` field is a JS `undefined` property. -/
structure RawRow where
  Cust_PO_Number : Option String
  Shipped_VIA : Option String
  Customer_Number : Option String
  Tracking_Number : Option String
deriving DecidableEq, Repr

/-- The output unit pushed by `formatCannonHillData`. -/
structure ShipmentRecord where
  source_id : String
  tracking_number : Option String
  carrier_code : String
  shipment_method : String
deriving DecidableEq, Repr

/-- The fixed `shipmentMethodMap` object (src/index.js line 87). -/
def shipmentMethodMap (m : String) : Option String :=
  if m = "G" then some "Ground"
  else if m = "3RD" then some "3 Day Select"
  else if m = "2ND" then some "2nd Day Air"
  else none

/-- The fixed `storeIdMap` object (src/index.js line 88). -/
def storeIdLookup (c : String) : Option String :=
  if c = "RTSCS" then some "68125"
  else if c = "RTFMS" then some "118741"
  else if c = "HERO" then some "14077"
  else none

/-- Character class of the regex `/[\/\s-]+/` (src/index.js line 95):
slash, whitespace, or hyphen. -/
def sepChar (c : Char) : Bool :=
  c == '/' || c == '-' || isJsSpace c

/-- Collapse every maximal run of separator characters to a single
canonical separator; the flag records whether we are inside a run. -/
def collapseSeps : List Char → Bool → List Char
  | [], _ => []
  | c :: rest, inRun =>
    if sepChar c then
      if inRun then collapseSeps rest true
      else '/' :: collapseSeps rest true
    else c :: collapseSeps rest false

/-- JS `s.split(/[\/\s-]+/)` (src/index.js line 95): a run of slashes,
whitespace, or hyphens is one separator; leading or trailing runs leave an
empty token at that end, as in JS. -/
def splitSepRuns (s : String) : List String :=
  (splitOnChar '/' (collapseSeps s.data false)).map (fun l => String.mk l)

/-- The regex test `/^\d+$/.test(part)` (src/index.js line 96): non-empty
and every character a decimal digit. -/
def isNumericToken (p : String) : Bool :=
  (p != "") && p.data.all Char.isDigit

/-- The `sanitizedValue` computation of the primary variant (src/index.js
lines 94-97): split on runs of `/`, whitespace, or `-`, find the first
all-digit token, and trim it; `none` when no token is all-digit. -/
def sanitizeCustPO (po : String) : Option String :=
  ((splitSepRuns po).find? isNumericToken).map jsTrim

/-- The extraction rule as the specification words it (spec 4.2 step 2),
for comparison with `sanitizeCustPO`: split on `/`, take the first
segment, strip every non-digit character, trim. -/
def specExtractOrderNumber (po : String) : String :=
  jsTrim (String.mk (((jsSplit '/' po).getD 0 "").data.filter Char.isDigit))

/-- The guards of src/index.js lines 92-99 folded into one key
computation: `none` exactly when the row is skipped for a reason other
than deduplication — `Cust_PO_Number` absent or empty (line 92's
truthiness test), or `sanitizedValue` undefined or empty (line 99's
truthiness test). -/
def rowKey (item : RawRow) : Option String :=
  match item.Cust_PO_Number with
  | none => none
  | some po =>
    if po = "" then none
    else
      match sanitizeCustPO po with
      | none => none
      | some san => if san = "" then none else some san

/-- Store id of src/index.js lines 103-109: look `Customer_Number` up in
`storeIdMap` (JS coerces an undefined key to `"undefined"`); on a miss the
raw `Customer_Number` is interpolated instead (the primary variant also
logs an error, which does not change the value). -/
def storeIdOf (item : RawRow) : String :=
  match storeIdLookup (jsToStr item.Customer_Number) with
  | some v => v
  | none => jsToStr item.Customer_Number

/-- `(item.Shipped_VIA || "").split('-').map(part => part.trim())`
(src/index.js line 100). -/
def carrierParts (item : RawRow) : List String :=
  (jsSplit '-' (item.Shipped_VIA.getD "")).map jsTrim

/-- Build the record pushed at src/index.js lines 100-113 for a row whose
sanitized order number is `san`: destructure the split `Shipped_VIA` with
`""` defaults, map the method code through `shipmentMethodMap` (falling
back to the raw code), defaulting an empty method to `"Residential"`. -/
def processRow (item : RawRow) (san : String) : ShipmentRecord :=
  let parts := carrierParts item
  let rawMethod := parts.getD 1 ""
  let mapped := (shipmentMethodMap rawMethod).getD rawMethod
  { source_id := storeIdOf item ++ "-" ++ san
  , tracking_number := item.Tracking_Number
  , carrier_code := parts.getD 0 ""
  , shipment_method := if mapped = "" then "Residential" else mapped }

/-- The `reduce` of src/index.js lines 91-118 as structural recursion:
`seen` is the `uniqueOrderIds` set (a list of the keys added so far);
a row with no key, or whose key is already in `seen`, contributes
nothing; otherwise its record is pushed and its key added. -/
def formatGo (seen : List String) : List RawRow → List ShipmentRecord
  | [] => []
  | item :: rest =>
    match rowKey item with
    | none => formatGo seen rest
    | some san =>
      if seen.contains san then formatGo seen rest
      else processRow item san :: formatGo (san :: seen) rest

/-- `formatCannonHillData` (src/index.js lines 86-119). -/
def formatCannonHillData (results : List RawRow) : List ShipmentRecord :=
  formatGo [] results

/-- Instrumented companion of `formatGo` returning, for each emitted
record, the input row it came from together with its deduplication key. -/
def emittedPairs (seen : List String) : List RawRow → List (RawRow × String)
  | [] => []
  | item :: rest =>
    match rowKey item with
    | none => emittedPairs seen rest
    | some san =>
      if seen.contains san then emittedPairs seen rest
      else (item, san) :: emittedPairs (san :: seen) rest

/- ## Submission Client (`postToSubmitRoute` / `simplifyPostResponses`,
src/index.js lines 130-221) -/

/-- The nested `postResponse` object of one element of the remote
response's `results` array. -/
structure PostResp where
  status : Option String
  message : Option String
deriving DecidableEq, Repr

/-- One element of the remote response's `results` array, as destructured
at src/index.js line 202: `{ postResponse = {}, error }`. -/
structure ResultItem where
  postResponse : Option PostResp
  error : Option String
deriving DecidableEq, Repr

/-- The parsed JSON body of a successful remote response
(src/index.js lines 162-171). -/
structure RemoteResponse where
  status : Option String
  message : Option String
  execution_time : Option String
  results : Option (List ResultItem)
deriving DecidableEq, Repr

/-- A simplified per-item outcome `{status, message}`. -/
structure SimpleResult where
  status : String
  message : String
deriving DecidableEq, Repr

/-- The structured value `postToSubmitRoute` returns on success
(src/index.js lines 166-171). -/
structure SubmissionResult where
  status : String
  message : String
  execution_time : String
  results : List SimpleResult
deriving DecidableEq, Repr

/-- The default extraction of src/index.js lines 210-211: the
(possibly defaulted-to-`{}`) `postResponse` supplies `status` and
`message` with `"unknown"` / `"No message provided"` defaults. -/
def simplifyPlain (pr : Option PostResp) : SimpleResult :=
  { status := jsOrDefault (pr.getD { status := none, message := none }).status
      "unknown"
  , message := jsOrDefault (pr.getD { status := none, message := none }).message
      "No message provided" }

/-- Simplify one element of the `results` array (src/index.js lines
202-220): a truthy `error` field short-circuits to an error outcome;
otherwise the defaults of `simplifyPlain` apply. -/
def simplifyOne (item : ResultItem) : SimpleResult :=
  match item.error with
  | none => simplifyPlain item.postResponse
  | some e =>
    if e = "" then simplifyPlain item.postResponse
    else { status := "error", message := e }

/-- `simplifyPostResponses` (src/index.js lines 194-221): a non-array or
empty argument yields the single fallback error element; otherwise map
`simplifyOne` over the array.  (The argument is typed as a list, so the
non-array branch of line 196 collapses into the empty check.) -/
def simplifyPostResponses (postResponses : List ResultItem) : List SimpleResult :=
  if postResponses.isEmpty then
    [{ status := "error", message := "No valid responses received" }]
  else postResponses.map simplifyOne

/-- The Submission Result built from a parsed remote response
(src/index.js lines 166-171), with JS `||` defaults; `results || []`
passes the array through unchanged when present (arrays are truthy) and
substitutes `[]` when absent. -/
def buildSubmissionResult (j : RemoteResponse) : SubmissionResult :=
  { status := jsOrDefault j.status "success"
  , message := jsOrDefault j.message "No message provided"
  , execution_time := jsOrDefault j.execution_time "N/A"
  , results := simplifyPostResponses (j.results.getD []) }

/-- The default of the `retries` parameter (src/index.js line 130). -/
def defaultRetries : Nat := 3

/-- Observable trace of one `postToSubmitRoute` call: how many network
requests were issued, the delays (in milliseconds) waited between
attempts, and the final outcome — `none` models the JS function falling
off the loop (only possible when `retries = 0`), `some (Except.error e)`
a thrown error, `some (Except.ok r)` a returned result. -/
structure SubmitTrace where
  calls : Nat
  delays : List Nat
  outcome : Option (Except String SubmissionResult)
deriving Repr

/-- The retry loop of src/index.js lines 143-185.  The network is an
oracle `att` giving the outcome of the `fetch` on each attempt number:
`Except.error` covers transport failure, a non-ok status (line 158
throws), and a JSON parse failure alike.  On success the structured
response is returned at once; on failure the error is rethrown when the
attempt was the last, and otherwise the loop sleeps `attempt * 1000`
milliseconds (line 183) and tries again. -/
def submitGo (att : Nat → Except String RemoteResponse) :
    Nat → Nat → SubmitTrace
  | _, 0 => { calls := 0, delays := [], outcome := none }
  | attempt, remaining + 1 =>
    match att attempt with
    | Except.ok j =>
      { calls := 1, delays := []
      , outcome := some (Except.ok (buildSubmissionResult j)) }
    | Except.error e =>
      if remaining = 0 then
        { calls := 1, delays := [], outcome := some (Except.error e) }
      else
        let t := submitGo att (attempt + 1) remaining
        { calls := 1 + t.calls
        , delays := attempt * 1000 :: t.delays
        , outcome := t.outcome }

/-- `postToSubmitRoute` (src/index.js lines 130-186): an empty record
list is rejected up front (lines 132-135) with no network call; otherwise
the retry loop runs starting at attempt 1.  (The `!Array.isArray(data)`
half of the guard cannot fire in the typed model.) -/
def postToSubmitRoute (att : Nat → Except String RemoteResponse)
    (data : List ShipmentRecord) (retries : Nat) : SubmitTrace :=
  if data.isEmpty then
    { calls := 0, delays := []
    , outcome := some (Except.error "No valid data to send to submit route") }
  else submitGo att 1 retries


/- ## Helper lemmas -/

lemma isJsSpace_eq_false_of_isDigit (c : Char) (h : c.isDigit = true) :
    isJsSpace c = false := by
  cases hsp : isJsSpace c
  · rfl
  · exfalso
    unfold isJsSpace at hsp
    simp only [Bool.or_eq_true, beq_iff_eq] at hsp
    rcases hsp with ((((h1 | h1) | h1) | h1) | h1) | h1 <;> subst h1 <;> simp at h

lemma dropWhile_isJsSpace_of_digits (l : List Char)
    (h : l.all Char.isDigit = true) : l.dropWhile isJsSpace = l := by
  cases l with
  | nil => rfl
  | cons c cs =>
    simp only [List.all_cons, Bool.and_eq_true] at h
    simp [List.dropWhile_cons, isJsSpace_eq_false_of_isDigit c h.1]

lemma jsTrim_eq_self_of_digits (s : String)
    (h : s.data.all Char.isDigit = true) : jsTrim s = s := by
  unfold jsTrim
  rw [dropWhile_isJsSpace_of_digits s.data h,
      dropWhile_isJsSpace_of_digits s.data.reverse (by simpa using h),
      List.reverse_reverse]

lemma sanitizeCustPO_digits (po san : String)
    (h : sanitizeCustPO po = some san) :
    san ≠ "" ∧ san.data.all Char.isDigit = true := by
  unfold sanitizeCustPO at h
  cases hf : (splitSepRuns po).find? isNumericToken with
  | none => rw [hf] at h; exact absurd h (by simp)
  | some tok =>
    rw [hf] at h
    have h2 : some (jsTrim tok) = some san := h
    injection h2 with h3
    have htok := List.find?_some hf
    unfold isNumericToken at htok
    simp only [Bool.and_eq_true, bne_iff_ne] at htok
    have htr : jsTrim tok = tok := jsTrim_eq_self_of_digits tok htok.2
    rw [htr] at h3
    subst h3
    exact ⟨htok.1, htok.2⟩

lemma rowKey_digits (item : RawRow) (k : String) (h : rowKey item = some k) :
    k ≠ "" ∧ k.data.all Char.isDigit = true := by
  unfold rowKey at h
  cases hpo : item.Cust_PO_Number with
  | none => rw [hpo] at h; exact absurd h (by simp)
  | some po =>
    rw [hpo] at h
    have h2 : (if po = "" then (none : Option String)
        else match sanitizeCustPO po with
          | none => none
          | some san => if san = "" then none else some san) = some k := h
    by_cases hpe : po = ""
    · rw [if_pos hpe] at h2; exact absurd h2 (by simp)
    · rw [if_neg hpe] at h2
      cases hs : sanitizeCustPO po with
      | none => rw [hs] at h2; exact absurd h2 (by simp)
      | some san =>
        rw [hs] at h2
        have h3 : (if san = "" then (none : Option String) else some san)
            = some k := h2
        by_cases hse : san = ""
        · rw [if_pos hse] at h3; exact absurd h3 (by simp)
        · rw [if_neg hse] at h3
          injection h3 with h4
          subst h4
          exact ⟨hse, (sanitizeCustPO_digits po san hs).2⟩

lemma rowKey_of_po (item : RawRow) (po : String)
    (hpo : item.Cust_PO_Number = some po) (hpe : po ≠ "") :
    rowKey item = match sanitizeCustPO po with
      | none => none
      | some san => if san = "" then none else some san := by
  unfold rowKey
  rw [hpo]
  show (if po = "" then (none : Option String)
      else match sanitizeCustPO po with
        | none => none
        | some san => if san = "" then none else some san) = _
  rw [if_neg hpe]

/- Step equations for `formatGo` and `emittedPairs`. -/

lemma formatGo_nil (seen : List String) : formatGo seen [] = [] := rfl

lemma formatGo_cons_none (seen : List String) (item : RawRow)
    (rest : List RawRow) (h : rowKey item = none) :
    formatGo seen (item :: rest) = formatGo seen rest := by
  simp only [formatGo]
  rw [h]

lemma formatGo_cons_dup (seen : List String) (item : RawRow)
    (rest : List RawRow) (san : String) (h : rowKey item = some san)
    (hc : seen.contains san = true) :
    formatGo seen (item :: rest) = formatGo seen rest := by
  simp only [formatGo]
  rw [h]
  show (if seen.contains san then formatGo seen rest
      else processRow item san :: formatGo (san :: seen) rest) = _
  rw [if_pos hc]

lemma formatGo_cons_new (seen : List String) (item : RawRow)
    (rest : List RawRow) (san : String) (h : rowKey item = some san)
    (hc : ¬seen.contains san = true) :
    formatGo seen (item :: rest) =
      processRow item san :: formatGo (san :: seen) rest := by
  simp only [formatGo]
  rw [h]
  show (if seen.contains san then formatGo seen rest
      else processRow item san :: formatGo (san :: seen) rest) = _
  rw [if_neg hc]

lemma emittedPairs_nil (seen : List String) : emittedPairs seen [] = [] := rfl

lemma emittedPairs_cons_none (seen : List String) (item : RawRow)
    (rest : List RawRow) (h : rowKey item = none) :
    emittedPairs seen (item :: rest) = emittedPairs seen rest := by
  simp only [emittedPairs]
  rw [h]

lemma emittedPairs_cons_dup (seen : List String) (item : RawRow)
    (rest : List RawRow) (san : String) (h : rowKey item = some san)
    (hc : seen.contains san = true) :
    emittedPairs seen (item :: rest) = emittedPairs seen rest := by
  simp only [emittedPairs]
  rw [h]
  show (if seen.contains san then emittedPairs seen rest
      else (item, san) :: emittedPairs (san :: seen) rest) = _
  rw [if_pos hc]

lemma emittedPairs_cons_new (seen : List String) (item : RawRow)
    (rest : List RawRow) (san : String) (h : rowKey item = some san)
    (hc : ¬seen.contains san = true) :
    emittedPairs seen (item :: rest) =
      (item, san) :: emittedPairs (san :: seen) rest := by
  simp only [emittedPairs]
  rw [h]
  show (if seen.contains san then emittedPairs seen rest
      else (item, san) :: emittedPairs (san :: seen) rest) = _
  rw [if_neg hc]

lemma formatGo_eq_map (rows : List RawRow) :
    ∀ seen, formatGo seen rows =
      (emittedPairs seen rows).map (fun p => processRow p.1 p.2) := by
  induction rows with
  | nil => intro seen; rfl
  | cons item rest ih =>
    intro seen
    cases hk : rowKey item with
    | none =>
      rw [formatGo_cons_none seen item rest hk,
          emittedPairs_cons_none seen item rest hk, ih]
    | some san =>
      by_cases hc : seen.contains san = true
      · rw [formatGo_cons_dup seen item rest san hk hc,
            emittedPairs_cons_dup seen item rest san hk hc, ih]
      · rw [formatGo_cons_new seen item rest san hk hc,
            emittedPairs_cons_new seen item rest san hk hc,
            List.map_cons, ih]

lemma emittedPairs_key (rows : List RawRow) :
    ∀ seen p, p ∈ emittedPairs seen rows → rowKey p.1 = some p.2 := by
  induction rows with
  | nil => intro seen p h; rw [emittedPairs_nil] at h; exact absurd h (by simp)
  | cons item rest ih =>
    intro seen p h
    cases hk : rowKey item with
    | none =>
      rw [emittedPairs_cons_none seen item rest hk] at h
      exact ih seen p h
    | some san =>
      by_cases hc : seen.contains san = true
      · rw [emittedPairs_cons_dup seen item rest san hk hc] at h
        exact ih seen p h
      · rw [emittedPairs_cons_new seen item rest san hk hc] at h
        rcases List.mem_cons.mp h with h1 | h1
        · subst h1; exact hk
        · exact ih (san :: seen) p h1

lemma emittedPairs_snd_fresh (rows : List RawRow) :
    ∀ seen, ((emittedPairs seen rows).map Prod.snd).Nodup ∧
      ∀ k, k ∈ (emittedPairs seen rows).map Prod.snd →
        seen.contains k = false := by
  induction rows with
  | nil =>
    intro seen
    rw [emittedPairs_nil]
    exact ⟨by simp, fun k hk => absurd hk (by simp)⟩
  | cons item rest ih =>
    intro seen
    cases hk : rowKey item with
    | none => rw [emittedPairs_cons_none seen item rest hk]; exact ih seen
    | some san =>
      by_cases hc : seen.contains san = true
      · rw [emittedPairs_cons_dup seen item rest san hk hc]; exact ih seen
      · rw [emittedPairs_cons_new seen item rest san hk hc]
        have ihs := ih (san :: seen)
        have hcf : seen.contains san = false := by
          cases hcv : seen.contains san with
          | false => rfl
          | true => exact absurd hcv hc
        rw [List.map_cons]
        constructor
        · rw [List.nodup_cons]
          refine ⟨fun hmem => ?_, ihs.1⟩
          have := ihs.2 san hmem
          rw [List.contains_cons] at this
          simp at this
        · intro k hk2
          rcases List.mem_cons.mp hk2 with h1 | h1
          · subst h1; exact hcf
          · have := ihs.2 k h1
            rw [List.contains_cons] at this
            exact (Bool.or_eq_false_iff.mp this).2

lemma emittedPairs_fst_sublist (rows : List RawRow) :
    ∀ seen, ((emittedPairs seen rows).map Prod.fst).Sublist rows := by
  induction rows with
  | nil => intro seen; rw [emittedPairs_nil]; simp
  | cons item rest ih =>
    intro seen
    cases hk : rowKey item with
    | none =>
      rw [emittedPairs_cons_none seen item rest hk]
      exact (ih seen).cons item
    | some san =>
      by_cases hc : seen.contains san = true
      · rw [emittedPairs_cons_dup seen item rest san hk hc]
        exact (ih seen).cons item
      · rw [emittedPairs_cons_new seen item rest san hk hc, List.map_cons]
        exact (ih (san :: seen)).cons₂ item

lemma emittedPairs_first (item : RawRow) (post : List RawRow) (k : String)
    (hk : rowKey item = some k) :
    ∀ pre seen, (∀ j ∈ pre, rowKey j ≠ some k) → seen.contains k = false →
      (item, k) ∈ emittedPairs seen (pre ++ item :: post) := by
  intro pre
  induction pre with
  | nil =>
    intro seen _ hseen
    rw [List.nil_append,
        emittedPairs_cons_new seen item post k hk
          (by intro he; rw [hseen] at he; exact absurd he (by simp))]
    exact List.mem_cons_self _ _
  | cons j pre ih =>
    intro seen hpre hseen
    have hj : rowKey j ≠ some k := hpre j (List.mem_cons_self j pre)
    have hpre2 : ∀ x ∈ pre, rowKey x ≠ some k :=
      fun x hx => hpre x (List.mem_cons.mpr (Or.inr hx))
    rw [List.cons_append]
    cases hkj : rowKey j with
    | none =>
      rw [emittedPairs_cons_none seen j _ hkj]
      exact ih seen hpre2 hseen
    | some k2 =>
      have hne : k2 ≠ k := fun e => hj (by rw [hkj, e])
      by_cases hc : seen.contains k2 = true
      · rw [emittedPairs_cons_dup seen j _ k2 hkj hc]
        exact ih seen hpre2 hseen
      · rw [emittedPairs_cons_new seen j _ k2 hkj hc]
        refine List.mem_cons.mpr (Or.inr ?_)
        refine ih (k2 :: seen) hpre2 ?_
        rw [List.contains_cons, hseen]
        have hbe : (k == k2) = false := beq_eq_false_iff_ne.mpr (Ne.symm hne)
        rw [hbe]
        rfl

lemma jsOrDefault_none (d : String) : jsOrDefault none d = d := rfl

lemma jsOrDefault_some (s d : String) (h : s ≠ "") :
    jsOrDefault (some s) d = s := by
  unfold jsOrDefault
  show (if s = "" then d else s) = s
  rw [if_neg h]

/-- The sequence of sleeps performed by `n` consecutive non-final
failures, the first of them on attempt number `a`: the sleep after
attempt `k` is `k * 1000` milliseconds (src/index.js line 183). -/
def retryDelays (a : Nat) : Nat → List Nat
  | 0 => []
  | n + 1 => a * 1000 :: retryDelays (a + 1) n

lemma retryDelays_length (n : Nat) : ∀ a, (retryDelays a n).length = n := by
  induction n with
  | zero => intro a; rfl
  | succ n ih => intro a; show (retryDelays a n.succ).length = n + 1
                 rw [show retryDelays a n.succ = a * 1000 :: retryDelays (a + 1) n from rfl]
                 rw [List.length_cons, ih (a + 1)]

lemma retryDelays_get (n : Nat) :
    ∀ a i (hi : i < (retryDelays a n).length),
      (retryDelays a n).get ⟨i, hi⟩ = (a + i) * 1000 := by
  induction n with
  | zero => intro a i hi; exact absurd hi (by simp [retryDelays])
  | succ n ih =>
    intro a i hi
    cases i with
    | zero => show a * 1000 = (a + 0) * 1000
              rw [Nat.add_zero]
    | succ i =>
      have hi2 : i < (retryDelays (a + 1) n).length := by
        have := hi
        rw [retryDelays_length] at this
        rw [retryDelays_length]
        omega
      show (retryDelays (a + 1) n).get ⟨i, hi2⟩ = (a + (i + 1)) * 1000
      rw [ih (a + 1) i hi2]
      congr 1
      omega

lemma submitGo_all_fail (att : Nat → Except String RemoteResponse)
    (err : Nat → String) :
    ∀ remaining attempt, 1 ≤ remaining →
      (∀ k, attempt ≤ k → k < attempt + remaining →
        att k = Except.error (err k)) →
      submitGo att attempt remaining =
        { calls := remaining
        , delays := retryDelays attempt (remaining - 1)
        , outcome := some (Except.error (err (attempt + remaining - 1))) } := by
  intro remaining
  induction remaining with
  | zero => intro attempt h1 _; exact absurd h1 (by omega)
  | succ r ih =>
    intro attempt h1 h2
    have hfail : att attempt = Except.error (err attempt) :=
      h2 attempt (le_refl attempt) (by omega)
    simp only [submitGo]
    rw [hfail]
    by_cases hr : r = 0
    · subst hr
      rfl
    · rcases Nat.exists_eq_succ_of_ne_zero hr with ⟨r2, rfl⟩
      show ({ calls := 1 + (submitGo att (attempt + 1) (r2 + 1)).calls
            , delays :=
                attempt * 1000 :: (submitGo att (attempt + 1) (r2 + 1)).delays
            , outcome := (submitGo att (attempt + 1) (r2 + 1)).outcome }
          : SubmitTrace) = _
      rw [ih (attempt + 1) (by omega)
        (fun k hk1 hk2 => h2 k (by omega) (by omega))]
      simp only [SubmitTrace.mk.injEq]
      refine ⟨by omega, rfl, ?_⟩
      rw [show attempt + 1 + (r2 + 1) - 1 = attempt + (r2 + 1 + 1) - 1 from
        by omega]

lemma submitGo_success (att : Nat → Except String RemoteResponse)
    (resp : RemoteResponse) :
    ∀ remaining j attempt, attempt ≤ j → j < attempt + remaining →
      (∀ k, attempt ≤ k → k < j → ∃ e, att k = Except.error e) →
      att j = Except.ok resp →
      submitGo att attempt remaining =
        { calls := j - attempt + 1
        , delays := retryDelays attempt (j - attempt)
        , outcome := some (Except.ok (buildSubmissionResult resp)) } := by
  intro remaining
  induction remaining with
  | zero => intro j attempt h1 h2 _ _; exact absurd h2 (by omega)
  | succ r ih =>
    intro j attempt h1 h2 h3 h4
    by_cases hj : j = attempt
    · subst hj
      simp only [submitGo]
      rw [h4, Nat.sub_self]
      rfl
    · have hjgt : attempt < j := by omega
      obtain ⟨e, he⟩ := h3 attempt (le_refl attempt) hjgt
      simp only [submitGo]
      rw [he]
      by_cases hr : r = 0
      · exfalso; omega
      · rcases Nat.exists_eq_succ_of_ne_zero hr with ⟨r2, rfl⟩
        show ({ calls := 1 + (submitGo att (attempt + 1) (r2 + 1)).calls
              , delays :=
                  attempt * 1000 :: (submitGo att (attempt + 1) (r2 + 1)).delays
              , outcome := (submitGo att (attempt + 1) (r2 + 1)).outcome }
            : SubmitTrace) = _
        rw [ih j (attempt + 1) (by omega) (by omega)
          (fun k hk1 hk2 => h3 k (by omega) hk2) h4]
        dsimp only
        congr 1
        · omega
        · rw [show j - attempt = (j - (attempt + 1)) + 1 from by omega]
          rfl

lemma postToSubmitRoute_ne_nil (att : Nat → Except String RemoteResponse)
    (data : List ShipmentRecord) (retries : Nat) (h : data ≠ []) :
    postToSubmitRoute att data retries = submitGo att 1 retries := by
  cases data with
  | nil => exact absurd rfl h
  | cons x xs => rfl

lemma zip_map_fst {α β γ : Type} (f : α → γ) (l1 : List α) :
    ∀ l2 : List β, (l1.zip l2).map (fun kv => (f kv.1, kv.2)) =
      (l1.map f).zip l2 := by
  induction l1 with
  | nil => intro l2; rfl
  | cons a l1 ih =>
    intro l2
    cases l2 with
    | nil => rfl
    | cons b l2 => simp [List.zip_cons_cons, ih l2]

/- ## Claim theorems -/

/-- Claim C1: `postToSubmitRoute` called on an empty record list fails at
once with the validation error and issues no network request; a network
request is issued only when the record list is non-empty. -/
theorem spec_C1 (att : Nat → Except String RemoteResponse) (retries : Nat) :
    (postToSubmitRoute att [] retries).calls = 0 ∧
    (postToSubmitRoute att [] retries).outcome =
      some (Except.error "No valid data to send to submit route") ∧
    ∀ data : List ShipmentRecord,
      (postToSubmitRoute att data retries).calls ≠ 0 → data ≠ [] := by
  refine ⟨rfl, rfl, ?_⟩
  intro data h hdata
  subst hdata
  exact h rfl

/-- A permanently failing network oracle, for the C1 witness. -/
def cAttDown : Nat → Except String RemoteResponse :=
  fun _ => Except.error "down"

/-- A sample shipment record for the Submission Client witnesses. -/
def cRec : ShipmentRecord :=
  { source_id := "68125-12345", tracking_number := some "1Z"
  , carrier_code := "UPS", shipment_method := "Ground" }

/-- Witness for C1 at a concrete oracle and the default retry count. -/
theorem spec_C1_witness :
    (postToSubmitRoute cAttDown [] defaultRetries).calls = 0 ∧
    (postToSubmitRoute cAttDown [] defaultRetries).outcome =
      some (Except.error "No valid data to send to submit route") ∧
    ([cRec] : List ShipmentRecord) ≠ [] :=
  ⟨(spec_C1 cAttDown defaultRetries).1,
   (spec_C1 cAttDown defaultRetries).2.1,
   (spec_C1 cAttDown defaultRetries).2.2 [cRec] (by decide)⟩

/-- The row refuting claim C2 as stated. -/
def c2CexRow : RawRow :=
  { Cust_PO_Number := some "AB12/3", Shipped_VIA := some ""
  , Customer_Number := some "CUST", Tracking_Number := some "T1" }

/-- Claim C2 as stated is false: on `Cust_PO_Number = "AB12/3"` the
claimed split-on-slash rule extracts `"12"`, but the code splits on runs
of `/`, whitespace, or `-` and takes the first all-digit token,
extracting `"3"`, so the emitted `source_id` ends in `-3`, not `-12`. -/
theorem spec_C2_counterexample :
    specExtractOrderNumber "AB12/3" = "12" ∧
    (formatCannonHillData [c2CexRow]).map (fun r => r.source_id) =
      ["CUST-3"] ∧
    (formatCannonHillData [c2CexRow]).map (fun r => r.source_id) ≠
      ["CUST-" ++ specExtractOrderNumber "AB12/3"] := by
  refine ⟨by decide, by decide, by decide⟩

/-- Claim C2 (amended): for a row whose `Cust_PO_Number` is non-empty,
the transformer splits the value on runs of `/`, whitespace, or `-`,
uses the first token consisting entirely of digits as the order number,
and skips the row when no such token exists. -/
theorem spec_C2_amended (item : RawRow) (po : String)
    (h1 : item.Cust_PO_Number = some po) (h2 : po ≠ "") :
    (∀ tok, (splitSepRuns po).find? isNumericToken = some tok →
      formatCannonHillData [item] = [processRow item tok]) ∧
    ((splitSepRuns po).find? isNumericToken = none →
      formatCannonHillData [item] = []) := by
  constructor
  · intro tok hf
    have htok := List.find?_some hf
    unfold isNumericToken at htok
    simp only [Bool.and_eq_true, bne_iff_ne] at htok
    have hsan : sanitizeCustPO po = some tok := by
      unfold sanitizeCustPO
      rw [hf]
      show some (jsTrim tok) = some tok
      rw [jsTrim_eq_self_of_digits tok htok.2]
    have hk : rowKey item = some tok := by
      rw [rowKey_of_po item po h1 h2, hsan]
      show (if tok = "" then (none : Option String) else some tok) = some tok
      rw [if_neg htok.1]
    show formatGo [] [item] = [processRow item tok]
    rw [formatGo_cons_new [] item [] tok hk (by simp), formatGo_nil]
  · intro hf
    have hsan : sanitizeCustPO po = none := by
      unfold sanitizeCustPO
      rw [hf]
      rfl
    have hk : rowKey item = none := by
      rw [rowKey_of_po item po h1 h2, hsan]
    show formatGo [] [item] = []
    rw [formatGo_cons_none [] item [] hk, formatGo_nil]

/-- A concrete row for the C2 witness: `"PO 77-88"` has tokens
`["PO", "77", "88"]` and the first all-digit one is `"77"`. -/
def c2WitnessRow : RawRow :=
  { Cust_PO_Number := some "PO 77-88", Shipped_VIA := some "UPS - G"
  , Customer_Number := some "HERO", Tracking_Number := some "TRK" }

/-- Witness for the amended C2 at a concrete row. -/
theorem spec_C2_amended_witness :
    formatCannonHillData [c2WitnessRow] = [processRow c2WitnessRow "77"] :=
  (spec_C2_amended c2WitnessRow "PO 77-88" rfl (by decide)).1 "77" (by decide)

/-- Claim C3: the deduplication keys of the emitted records are pairwise
distinct; the output is exactly one record per emitted (row, key) pair in
input order; the emitted rows form a subsequence of the input; and the
first row bearing a not-yet-seen key is always emitted. -/
theorem spec_C3 (rows : List RawRow) :
    ((emittedPairs [] rows).map Prod.snd).Nodup ∧
    formatCannonHillData rows =
      (emittedPairs [] rows).map (fun p => processRow p.1 p.2) ∧
    ((emittedPairs [] rows).map Prod.fst).Sublist rows ∧
    ∀ pre item post k, rows = pre ++ item :: post →
      rowKey item = some k → (∀ j ∈ pre, rowKey j ≠ some k) →
      (item, k) ∈ emittedPairs [] rows := by
  refine ⟨(emittedPairs_snd_fresh rows []).1, formatGo_eq_map rows [],
    emittedPairs_fst_sublist rows [], ?_⟩
  intro pre item post k hrows hk hpre
  subst hrows
  exact emittedPairs_first item post k hk pre [] hpre rfl

/-- Rows for the C3 witness: the first two share order number `"111"`. -/
def c3RowA : RawRow :=
  { Cust_PO_Number := some "111/1", Shipped_VIA := some "UPS - G"
  , Customer_Number := some "RTSCS", Tracking_Number := some "TA" }

def c3RowB : RawRow :=
  { Cust_PO_Number := some "111/2", Shipped_VIA := some ""
  , Customer_Number := some "HERO", Tracking_Number := some "TB" }

def c3RowC : RawRow :=
  { Cust_PO_Number := some "222/1", Shipped_VIA := some ""
  , Customer_Number := some "HERO", Tracking_Number := some "TC" }

/-- Witness for C3 on a concrete list with a duplicated order number. -/
theorem spec_C3_witness :
    ((emittedPairs [] [c3RowA, c3RowB, c3RowC]).map Prod.snd).Nodup ∧
    (c3RowA, "111") ∈ emittedPairs [] [c3RowA, c3RowB, c3RowC] :=
  ⟨(spec_C3 [c3RowA, c3RowB, c3RowC]).1,
   (spec_C3 [c3RowA, c3RowB, c3RowC]).2.2.2 [] c3RowA [c3RowB, c3RowC] "111"
     rfl (by decide) (by simp)⟩

/-- Claim C4: every emitted record comes from `processRow`, whose carrier
and method derive from `Shipped_VIA` (defaulted to `""` when absent)
split on `-` with both sides trimmed: the first segment is
`carrier_code`, the second the raw method code mapped through the fixed
table (`G`, `3RD`, `2ND`), passed through unchanged when unrecognized and
replaced by `"Residential"` when empty; `"UPS - G"` gives
`("UPS", "Ground")` and an absent or empty `Shipped_VIA` gives
`("", "Residential")`. -/
theorem spec_C4 (item : RawRow) (san : String) :
    (∀ rows, formatCannonHillData rows =
      (emittedPairs [] rows).map (fun p => processRow p.1 p.2)) ∧
    (processRow item san).carrier_code =
      ((jsSplit '-' (item.Shipped_VIA.getD "")).map jsTrim).getD 0 "" ∧
    (processRow item san).shipment_method =
      (if (shipmentMethodMap
              (((jsSplit '-' (item.Shipped_VIA.getD "")).map jsTrim).getD 1 "")).getD
            (((jsSplit '-' (item.Shipped_VIA.getD "")).map jsTrim).getD 1 "") = ""
        then "Residential"
        else (shipmentMethodMap
              (((jsSplit '-' (item.Shipped_VIA.getD "")).map jsTrim).getD 1 "")).getD
            (((jsSplit '-' (item.Shipped_VIA.getD "")).map jsTrim).getD 1 "")) ∧
    shipmentMethodMap "G" = some "Ground" ∧
    shipmentMethodMap "3RD" = some "3 Day Select" ∧
    shipmentMethodMap "2ND" = some "2nd Day Air" ∧
    (item.Shipped_VIA = some "UPS - G" →
      (processRow item san).carrier_code = "UPS" ∧
      (processRow item san).shipment_method = "Ground") ∧
    ((item.Shipped_VIA = none ∨ item.Shipped_VIA = some "") →
      (processRow item san).carrier_code = "" ∧
      (processRow item san).shipment_method = "Residential") := by
  refine ⟨fun rows => formatGo_eq_map rows [], rfl, rfl, rfl, rfl, rfl,
    ?_, ?_⟩
  · intro h
    have hc : carrierParts item = ["UPS", "G"] := by
      unfold carrierParts
      rw [h]
      decide
    constructor
    · show (carrierParts item).getD 0 "" = "UPS"
      rw [hc]
      rfl
    · show (if (shipmentMethodMap ((carrierParts item).getD 1 "")).getD
            ((carrierParts item).getD 1 "") = "" then "Residential"
          else (shipmentMethodMap ((carrierParts item).getD 1 "")).getD
            ((carrierParts item).getD 1 "")) = "Ground"
      rw [hc]
      decide
  · intro h
    have hc : carrierParts item = [""] := by
      unfold carrierParts
      rcases h with h | h <;> rw [h] <;> decide
    constructor
    · show (carrierParts item).getD 0 "" = ""
      rw [hc]
      rfl
    · show (if (shipmentMethodMap ((carrierParts item).getD 1 "")).getD
            ((carrierParts item).getD 1 "") = "" then "Residential"
          else (shipmentMethodMap ((carrierParts item).getD 1 "")).getD
            ((carrierParts item).getD 1 "")) = "Residential"
      rw [hc]
      decide

/-- A row for the C4 witness, exercising the `"UPS - G"` example. -/
def c4Row : RawRow :=
  { Cust_PO_Number := some "5/1", Shipped_VIA := some "UPS - G"
  , Customer_Number := some "RTSCS", Tracking_Number := none }

/-- Witness for C4 on the `"UPS - G"` example. -/
theorem spec_C4_witness :
    (processRow c4Row "5").carrier_code = "UPS" ∧
    (processRow c4Row "5").shipment_method = "Ground" :=
  (spec_C4 c4Row "5").2.2.2.2.2.2.1 rfl

/-- Claim C5: the store id is `Customer_Number` mapped through the fixed
table (`RTSCS`, `RTFMS`, `HERO`), falling back to the raw customer
number, and `source_id` is the store id, a hyphen, and the extracted
order number; `Customer_Number = "RTSCS"` with
`Cust_PO_Number = "12345/1"` emits `source_id = "68125-12345"`, and the
unmapped `Customer_Number = "UNKNOWN1"` emits a `source_id` starting
`"UNKNOWN1-"`. -/
theorem spec_C5 (item : RawRow) (san : String) :
    storeIdLookup "RTSCS" = some "68125" ∧
    storeIdLookup "RTFMS" = some "118741" ∧
    storeIdLookup "HERO" = some "14077" ∧
    (∀ c v, item.Customer_Number = some c → storeIdLookup c = some v →
      (processRow item san).source_id = v ++ "-" ++ san) ∧
    (∀ c, item.Customer_Number = some c → storeIdLookup c = none →
      (processRow item san).source_id = c ++ "-" ++ san) ∧
    (item.Cust_PO_Number = some "12345/1" →
      item.Customer_Number = some "RTSCS" →
      (formatCannonHillData [item]).map (fun r => r.source_id) =
        ["68125-12345"]) ∧
    (item.Cust_PO_Number = some "12345/1" →
      item.Customer_Number = some "UNKNOWN1" →
      (formatCannonHillData [item]).map (fun r => r.source_id) =
        ["UNKNOWN1-" ++ "12345"]) := by
  refine ⟨rfl, rfl, rfl, ?_, ?_, ?_, ?_⟩
  · intro c v hc hv
    have hs : storeIdOf item = v := by
      unfold storeIdOf
      rw [hc]
      show (match storeIdLookup c with
        | some w => w
        | none => c) = v
      rw [hv]
    show storeIdOf item ++ "-" ++ san = v ++ "-" ++ san
    rw [hs]
  · intro c hc hv
    have hs : storeIdOf item = c := by
      unfold storeIdOf
      rw [hc]
      show (match storeIdLookup c with
        | some w => w
        | none => c) = c
      rw [hv]
    show storeIdOf item ++ "-" ++ san = c ++ "-" ++ san
    rw [hs]
  · intro h1 h2
    have hk : rowKey item = some "12345" := by
      rw [rowKey_of_po item "12345/1" h1 (by decide)]
      decide
    have hfmt : formatCannonHillData [item] = [processRow item "12345"] := by
      show formatGo [] [item] = _
      rw [formatGo_cons_new [] item [] "12345" hk (by simp), formatGo_nil]
    rw [hfmt]
    have hs : storeIdOf item = "68125" := by
      unfold storeIdOf
      rw [h2]
      decide
    show [storeIdOf item ++ "-" ++ "12345"] = _
    rw [hs]
    decide
  · intro h1 h2
    have hk : rowKey item = some "12345" := by
      rw [rowKey_of_po item "12345/1" h1 (by decide)]
      decide
    have hfmt : formatCannonHillData [item] = [processRow item "12345"] := by
      show formatGo [] [item] = _
      rw [formatGo_cons_new [] item [] "12345" hk (by simp), formatGo_nil]
    rw [hfmt]
    have hs : storeIdOf item = "UNKNOWN1" := by
      unfold storeIdOf
      rw [h2]
      decide
    show [storeIdOf item ++ "-" ++ "12345"] = _
    rw [hs]
    decide

/-- A row for the C5 witness, exercising the `RTSCS` example. -/
def c5Row : RawRow :=
  { Cust_PO_Number := some "12345/1", Shipped_VIA := some "UPS - G"
  , Customer_Number := some "RTSCS", Tracking_Number := some "1Z" }

/-- Witness for C5 on the `RTSCS` example row. -/
theorem spec_C5_witness :
    (formatCannonHillData [c5Row]).map (fun r => r.source_id) =
      ["68125-12345"] :=
  (spec_C5 c5Row "12345").2.2.2.2.2.1 rfl rfl

/-- Claim C6: the CSV normalizer skips the first 4 lines, treats the next
as the header, emits one Raw Row per later data line in input order, and
rewrites every column name by replacing each space or hyphen with an
underscore (so `"Cust PO-Number"` becomes `"Cust_PO_Number"`), leaving
cell values unchanged. -/
theorem spec_C6 (content header : String) (dataLines : List String)
    (h : (jsSplit '\n' content).drop 4 = header :: dataLines) :
    parseCSVFromBuffer content =
      dataLines.map (fun line =>
        ((jsSplit ',' header).map normalizeKey).zip (jsSplit ',' line)) ∧
    (parseCSVFromBuffer content).length = dataLines.length ∧
    normalizeKey "Cust PO-Number" = "Cust_PO_Number" := by
  have hrows : parseCSVRows (jsSplit '\n' content) =
      dataLines.map (fun line =>
        (jsSplit ',' header).zip (jsSplit ',' line)) := by
    unfold parseCSVRows
    rw [h]
  have hmain : parseCSVFromBuffer content =
      dataLines.map (fun line =>
        ((jsSplit ',' header).map normalizeKey).zip (jsSplit ',' line)) := by
    unfold parseCSVFromBuffer
    rw [hrows, List.map_map]
    exact congrArg (fun f => List.map f dataLines)
      (funext fun line =>
        zip_map_fst normalizeKey (jsSplit ',' header) (jsSplit ',' line))
  refine ⟨hmain, ?_, by decide⟩
  rw [hmain, List.length_map]

/-- Witness for C6 on a concrete upload with 4 banner lines. -/
theorem spec_C6_witness :
    parseCSVFromBuffer
        "L1\nL2\nL3\nL4\nCust PO-Number,Tracking Number\n7890/2,1Z999" =
      [[("Cust_PO_Number", "7890/2"), ("Tracking_Number", "1Z999")]] := by
  have h := (spec_C6
    "L1\nL2\nL3\nL4\nCust PO-Number,Tracking Number\n7890/2,1Z999"
    "Cust PO-Number,Tracking Number" ["7890/2,1Z999"] (by decide)).1
  rw [h]
  decide

/-- Claim C7: with a non-empty payload the Submission Client performs up
to `retries` attempts (`defaultRetries = 3`); when every attempt fails it
issues exactly `retries` network calls, waits attempt-number × 1000 ms
between consecutive attempts, and surfaces the last failure with no
success emitted; a first success at attempt `j` stops the loop at `j`
calls with the simplified response. -/
theorem spec_C7 (att : Nat → Except String RemoteResponse)
    (data : List ShipmentRecord) (retries : Nat)
    (hd : data ≠ []) (hr : 1 ≤ retries) :
    defaultRetries = 3 ∧
    (∀ err : Nat → String,
      (∀ k, 1 ≤ k → k ≤ retries → att k = Except.error (err k)) →
      postToSubmitRoute att data retries =
        { calls := retries
        , delays := retryDelays 1 (retries - 1)
        , outcome := some (Except.error (err retries)) }) ∧
    (∀ j resp, 1 ≤ j → j ≤ retries →
      (∀ k, 1 ≤ k → k < j → ∃ e, att k = Except.error e) →
      att j = Except.ok resp →
      postToSubmitRoute att data retries =
        { calls := j
        , delays := retryDelays 1 (j - 1)
        , outcome := some (Except.ok (buildSubmissionResult resp)) }) ∧
    (∀ n i (hi : i < (retryDelays 1 n).length),
      (retryDelays 1 n).get ⟨i, hi⟩ = (i + 1) * 1000) := by
  refine ⟨rfl, ?_, ?_, ?_⟩
  · intro err herr
    rw [postToSubmitRoute_ne_nil att data retries hd,
        submitGo_all_fail att err retries 1 hr
          (fun k hk1 hk2 => herr k hk1 (by omega)),
        show 1 + retries - 1 = retries from by omega]
  · intro j resp hj1 hj2 hfail hok
    rw [postToSubmitRoute_ne_nil att data retries hd,
        submitGo_success att resp retries j 1 hj1 (by omega)
          (fun k hk1 hk2 => hfail k hk1 hk2) hok,
        show j - 1 + 1 = j from by omega]
  · intro n i hi
    rw [retryDelays_get n 1 i hi, Nat.add_comm]

/-- A healthy remote response for the C7 witness. -/
def cResp : RemoteResponse :=
  { status := some "success", message := some "ok"
  , execution_time := some "1s"
  , results := some
      [{ postResponse := some { status := some "completed"
                              , message := some "done" }
       , error := none }] }

/-- An oracle that fails on the first two attempts, for the C7 witness. -/
def cAttFlaky : Nat → Except String RemoteResponse := fun k =>
  if k < 3 then Except.error ("boom " ++ toString k) else Except.ok cResp

/-- An oracle that always fails, for the C7 witness. -/
def cAttDead : Nat → Except String RemoteResponse := fun k =>
  Except.error ("boom " ++ toString k)

/-- Witness for C7: three failures exhaust the default retries; two
failures before a success stop at the third call. -/
theorem spec_C7_witness :
    postToSubmitRoute cAttDead [cRec] defaultRetries =
      { calls := 3, delays := [1000, 2000]
      , outcome := some (Except.error "boom 3") } ∧
    postToSubmitRoute cAttFlaky [cRec] defaultRetries =
      { calls := 3, delays := [1000, 2000]
      , outcome := some (Except.ok (buildSubmissionResult cResp)) } := by
  constructor
  · have h := (spec_C7 cAttDead [cRec] defaultRetries (by decide)
      (by decide)).2.1 (fun k => "boom " ++ toString k)
      (fun k hk1 hk2 => rfl)
    exact h.trans rfl
  · have h := (spec_C7 cAttFlaky [cRec] defaultRetries (by decide)
      (by decide)).2.2.1 3 cResp (by decide) (by decide)
      (fun k hk1 hk2 => ⟨"boom " ++ toString k, by
        unfold cAttFlaky
        rw [if_pos hk2]⟩)
      rfl
    exact h.trans rfl

/-- Claim C8: each element of a non-empty `results` array is simplified
to exactly `{status, message}`: a truthy `error` field gives
`{status := "error", message := error}`; otherwise a missing status
defaults to `"unknown"` and a missing message to
`"No message provided"`. -/
theorem spec_C8 (items : List ResultItem) (hne : items ≠ []) :
    simplifyPostResponses items = items.map simplifyOne ∧
    (∀ item e, item.error = some e → e ≠ "" →
      simplifyOne item = { status := "error", message := e }) ∧
    (∀ item, item.error = none → item.postResponse = none →
      simplifyOne item =
        { status := "unknown", message := "No message provided" }) ∧
    (∀ item p s m, item.error = none → item.postResponse = some p →
      p.status = some s → s ≠ "" → p.message = some m → m ≠ "" →
      simplifyOne item = { status := s, message := m }) := by
  refine ⟨?_, ?_, ?_, ?_⟩
  · cases items with
    | nil => exact absurd rfl hne
    | cons x xs => rfl
  · intro item e he hene
    unfold simplifyOne
    rw [he]
    show (if e = "" then simplifyPlain item.postResponse
        else { status := "error", message := e }) = _
    rw [if_neg hene]
  · intro item he hp
    unfold simplifyOne
    rw [he]
    show simplifyPlain item.postResponse = _
    rw [hp]
    rfl
  · intro item p s m he hp hs hsne hm hmne
    unfold simplifyOne
    rw [he]
    show simplifyPlain item.postResponse = _
    rw [hp]
    show ({ status := jsOrDefault p.status "unknown"
          , message := jsOrDefault p.message "No message provided" }
        : SimpleResult) = _
    rw [hs, hm, jsOrDefault_some s "unknown" hsne,
        jsOrDefault_some m "No message provided" hmne]

/-- Witness for C8 on a two-element results array, one carrying an
explicit error and one fully defaulted. -/
theorem spec_C8_witness :
    simplifyPostResponses
        [{ postResponse := none, error := some "bad" }
        , { postResponse := none, error := none }] =
      [{ status := "error", message := "bad" }
      , { status := "unknown", message := "No message provided" }] := by
  have h := (spec_C8
    [{ postResponse := none, error := some "bad" }
    , { postResponse := none, error := none }] (by decide)).1
  rw [h]
  decide

/-- Claim C9: when the remote `results` field is absent or the empty
array, the returned `results` is exactly the one-element fallback
`[{status := "error", message := "No valid responses received"}]`, and on
every successful submission the returned `results` list is non-empty. -/
theorem spec_C9 (j : RemoteResponse) :
    ((j.results = none ∨ j.results = some []) →
      (buildSubmissionResult j).results =
        [{ status := "error", message := "No valid responses received" }]) ∧
    (buildSubmissionResult j).results ≠ [] := by
  constructor
  · intro h
    show simplifyPostResponses (j.results.getD []) = _
    rcases h with h | h <;> rw [h] <;> rfl
  · show simplifyPostResponses (j.results.getD []) ≠ []
    cases hres : j.results.getD [] with
    | nil => decide
    | cons x xs =>
      show simplifyOne x :: xs.map simplifyOne ≠ []
      exact List.cons_ne_nil _ _

/-- Witness for C9 on a remote response with no `results` field. -/
theorem spec_C9_witness :
    (buildSubmissionResult
      { status := none, message := none
      , execution_time := none, results := none }).results =
      [{ status := "error", message := "No valid responses received" }] :=
  (spec_C9 { status := none, message := none
           , execution_time := none, results := none }).1 (Or.inl rfl)

/-- Claim C10: every emitted record's order-number component — the
deduplication key, appended after the hyphen to the store id in
`source_id` — is a non-empty string of decimal digits. -/
theorem spec_C10 (rows : List RawRow) (r : ShipmentRecord)
    (h : r ∈ formatCannonHillData rows) :
    ∃ p, p ∈ emittedPairs [] rows ∧ r = processRow p.1 p.2 ∧
      r.source_id = storeIdOf p.1 ++ "-" ++ p.2 ∧
      p.2 ≠ "" ∧ p.2.data.all Char.isDigit = true := by
  rw [show formatCannonHillData rows = formatGo [] rows from rfl,
      formatGo_eq_map rows []] at h
  rcases List.mem_map.mp h with ⟨p, hp, hr⟩
  have hkey := emittedPairs_key rows [] p hp
  have hd := rowKey_digits p.1 p.2 hkey
  exact ⟨p, hp, hr.symm, by rw [← hr]; rfl, hd.1, hd.2⟩

/-- The record `c5Row` produces, for the C10 witness. -/
def c10Rec : ShipmentRecord :=
  { source_id := "68125-12345", tracking_number := some "1Z"
  , carrier_code := "UPS", shipment_method := "Ground" }

/-- Witness for C10 at the concrete emitted record of `c5Row`. -/
theorem spec_C10_witness :
    ∃ p, p ∈ emittedPairs [] [c5Row] ∧ c10Rec = processRow p.1 p.2 ∧
      c10Rec.source_id = storeIdOf p.1 ++ "-" ++ p.2 ∧
      p.2 ≠ "" ∧ p.2.data.all Char.isDigit = true :=
  spec_C10 [c5Row] c10Rec (by decide)

end CannonHill
